import Mathlib

open List in
/-- Sublist relation of the List namespace, used for syscall-trace order. -/
abbrev TraceSub (a b : List α) : Prop := a <+ b

/-!
Verification of the passthrough filesystem core (src/passthrough/sync_io.rs)
against its natural-language specification.

The definitions below are a shallow embedding of the code.  Pure control
flow is translated directly from the source; host-kernel effects and the
handful of helpers that live in modules outside the provided source slice
(the inode/handle maps, `do_lookup`, `forget_one`, `is_safe_inode`,
`validate_path_component`, `seal_size_check`) are modelled from the spec,
and each such definition carries a doc comment starting with
"Modelled from the spec:".
-/

/-- POSIX-style error codes surfaced by the operations under verification. -/
inductive Errno where
  | EBADF
  | ENOSYS
  | EPERM
  | EINVAL
  | EACCES
  | ENOENT
  | EINTR
deriving DecidableEq

/- ## Object Table refcount lifecycle (claim C1) -/

/-- Modelled from the spec: the refcount increment performed by the resolve
operation (`do_lookup`, defined outside the shown source slice): insert the
record with lookup refcount 1 when absent, otherwise increment it. -/
def resolve_obj : Option Nat → Option Nat
  | some c => some (c + 1)
  | none => some 1

/-- Modelled from the spec: the Object Table release performed by
`forget_one` (defined outside the shown source slice, called from
`forget` and `batch_forget` in the source): atomically subtract the count,
clamped so the refcount never goes negative, and remove the record exactly
when the result reaches zero.  Releasing an absent object is a no-op. -/
def release_obj (count : Nat) : Option Nat → Option Nat
  | some c => if c ≤ count then none else some (c - count)
  | none => none

/-- One resolve (lookup) or release (forget / batch-forget item) call on a
single object. -/
inductive ObjOp where
  | resolve
  | release (n : Nat)
deriving DecidableEq

/-- Apply one call to the object's table entry (`none` = absent). -/
def stepObj (s : Option Nat) : ObjOp → Option Nat
  | .resolve => resolve_obj s
  | .release n => release_obj n s

/-- Run a sequence of resolve/release calls on one object. -/
def runObj (ops : List ObjOp) (s : Option Nat) : Option Nat :=
  ops.foldl stepObj s

/-- Cumulative number of resolve calls in a sequence. -/
def resolvesOf : List ObjOp → Nat
  | [] => 0
  | .resolve :: rest => resolvesOf rest + 1
  | .release _ :: rest => resolvesOf rest

/-- Cumulative number of released references in a sequence. -/
def releasesOf : List ObjOp → Nat
  | [] => 0
  | .resolve :: rest => releasesOf rest
  | .release n :: rest => releasesOf rest + n

/-- A call sequence is well formed from refcount `c` when no release ever
gives back more references than are currently held (the FUSE protocol
guarantee: the kernel never forgets more than it looked up). -/
def wfObj : Nat → List ObjOp → Bool
  | _, [] => true
  | c, .resolve :: rest => wfObj (c + 1) rest
  | c, .release n :: rest => decide (n ≤ c) && wfObj (c - n) rest

/-- The table entry corresponding to an abstract refcount. -/
def refcountState (c : Nat) : Option Nat :=
  if c = 0 then none else some c

/- ## Path-component validation (claim C6) -/

/-- Modelled from the spec: `validate_path_component` (defined outside the
shown source slice): the supplied name must be non-empty, contain no path
separator, and not be exactly "." or ".."; violations are rejected with
the invalid-argument error. -/
def validate_path_component (name : List Char) : Except Errno Unit :=
  if name = [] ∨ name = ['.'] ∨ name = ['.', '.'] ∨ '/' ∈ name then
    .error .EINVAL
  else
    .ok ()

/-- The name check of `lookup` (source lines 368-374): only names containing
a path separator are rejected; "." and ".." pass through for NFS export
support.  The nul terminator appended by `to_bytes_with_nul` is never a
slash, so checking the name characters is equivalent. -/
def lookup_name_check (name : List Char) : Except Errno Unit :=
  if '/' ∈ name then .error .EINVAL else .ok ()

/-- Shared shape of every entry-creating operation: validate the name, then
run the rest of the operation (represented by its outcome `rest`). -/
def with_validated_name (name : List Char) (rest : Except Errno Unit) :
    Except Errno Unit :=
  match validate_path_component name with
  | .error e => .error e
  | .ok _ => rest

/-- mkdir (source lines 420-444): validates the new name first. -/
def mkdir_call (name : List Char) (rest : Except Errno Unit) : Except Errno Unit :=
  with_validated_name name rest

/-- mknod (source lines 919-951): validates the new name first. -/
def mknod_call (name : List Char) (rest : Except Errno Unit) : Except Errno Unit :=
  with_validated_name name rest

/-- create (source lines 552-611): validates the new name first. -/
def create_call (name : List Char) (rest : Except Errno Unit) : Except Errno Unit :=
  with_validated_name name rest

/-- link (source lines 953-985): validates the new name first. -/
def link_call (name : List Char) (rest : Except Errno Unit) : Except Errno Unit :=
  with_validated_name name rest

/-- symlink (source lines 987-1010): validates the new name first. -/
def symlink_call (name : List Char) (rest : Except Errno Unit) : Except Errno Unit :=
  with_validated_name name rest

/-- unlink (source lines 613-616): validates the name first. -/
def unlink_call (name : List Char) (rest : Except Errno Unit) : Except Errno Unit :=
  with_validated_name name rest

/-- rmdir (source lines 446-449): validates the name first. -/
def rmdir_call (name : List Char) (rest : Except Errno Unit) : Except Errno Unit :=
  with_validated_name name rest

/-- rename (source lines 882-917): validates the old name, then the new
name, before doing anything else. -/
def rename_call (oldname newname : List Char) (rest : Except Errno Unit) :
    Except Errno Unit :=
  with_validated_name oldname (with_validated_name newname rest)

/-- lookup (source lines 368-374): only the slash check applies. -/
def lookup_call (name : List Char) (rest : Except Errno Unit) : Except Errno Unit :=
  match lookup_name_check name with
  | .error e => .error e
  | .ok _ => rest

/-- A name the entry-creating operations must reject. -/
def bad_component (name : List Char) : Prop :=
  name = [] ∨ name = ['.'] ∨ name = ['.', '.'] ∨ '/' ∈ name

instance (name : List Char) : Decidable (bad_component name) := by
  unfold bad_component
  infer_instance

/- ## Directory enumeration: raw records and the parse loop (claims C2, C10) -/

/-- One parsed record of the raw getdents64 buffer (`LinuxDirent64` header
plus name).  `nameDot` says the name starts with "." or ".." (such records
are skipped); `nameValid` says `bytes_to_cstr` succeeds on the padded name
bytes; `name` is the trimmed name. -/
structure RawRec where
  d_ino : Nat
  d_off : Nat
  d_ty : Nat
  nameDot : Bool
  nameValid : Bool
  name : String
deriving DecidableEq

/-- The per-record loop of `do_readdir` (source lines 110-177).  Returns the
call's outcome together with the number of records the sink accepted
(returned a positive consumed-byte count for).  The `isFirst` flag is true
exactly while no record has been consumed from the buffer, mirroring the
`rem.len() == orig_rem_len` comparison in the source. -/
def process_dirents (sink : RawRec → Except Errno Nat) :
    List RawRec → Bool → Except Errno Unit × Nat
  | [], _ => (.ok (), 0)
  | r :: rest, isFirst =>
    if r.nameDot then
      process_dirents sink rest false
    else if !r.nameValid then
      (.error .EINVAL, 0)
    else
      match sink r with
      | .ok 0 => (.ok (), 0)
      | .ok (_ + 1) =>
        let tail := process_dirents sink rest false
        (tail.1, tail.2 + 1)
      | .error e => if isFirst then (.error e, 0) else (.ok (), 0)

/-- Events on the directory descriptor performed by `do_readdir`. -/
inductive DirEv where
  | lseekEv
  | getdentsEv
deriving DecidableEq

/-- do_readdir (source lines 61-180).  A reply size of zero returns at once,
before the handle is even resolved.  `dirdata` is the outcome of
`get_dirdata`; the raw buffer produced by the bulk getdents64 read is the
collaborator-supplied `buf`.  The event list records the reposition
(lseek64) and bulk read (getdents64) on the directory descriptor. -/
def do_readdir (size : Nat) (dirdata : Except Errno Unit) (buf : List RawRec)
    (sink : RawRec → Except Errno Nat) : (Except Errno Unit × Nat) × List DirEv :=
  if size = 0 then ((.ok (), 0), [])
  else
    match dirdata with
    | .error e => ((.error e, 0), [])
    | .ok _ => (process_dirents sink buf true, [.lseekEv, .getdentsEv])

/-- readdir (source lines 451-482): returns success at once when the
session's no-readdir flag is set. -/
def readdir_call (noReaddir : Bool) (size : Nat) (dirdata : Except Errno Unit)
    (buf : List RawRec) (sink : RawRec → Except Errno Nat) :
    (Except Errno Unit × Nat) × List DirEv :=
  if noReaddir then ((.ok (), 0), [])
  else do_readdir size dirdata buf sink

/-- readdirplus (source lines 484-518): returns success at once when the
session's no-readdir flag is set. -/
def readdirplus_call (noReaddir : Bool) (size : Nat) (dirdata : Except Errno Unit)
    (buf : List RawRec) (sink : RawRec → Except Errno Nat) :
    (Except Errno Unit × Nat) × List DirEv :=
  if noReaddir then ((.ok (), 0), [])
  else do_readdir size dirdata buf sink

/- ## Directory enumeration: per-entry identity and refcounts (claim C4) -/

/-- The resolve collaborator's environment: canonical child identity per
(directory, name), and the host stat inode number per object. -/
structure LookupEnv where
  children : Nat → String → Option Nat
  hostIno : Nat → Nat

/-- The part of a lookup reply the enumeration code uses. -/
structure Entry where
  inode : Nat
  attr_st_ino : Nat
deriving DecidableEq

/-- Modelled from the spec: `do_lookup` (defined outside the shown source
slice) resolves (parent, name) to the canonical object identity and
increments that object's lookup refcount in the Object Table. -/
def do_lookup (env : LookupEnv) (rc : Nat → Nat) (parent : Nat) (name : String) :
    Except Errno (Entry × (Nat → Nat)) :=
  match env.children parent name with
  | none => .error .ENOENT
  | some c =>
    .ok ({ inode := c, attr_st_ino := env.hostIno c },
      fun i => if i = c then rc i + 1 else rc i)

/-- Modelled from the spec: `forget_one` (defined outside the shown source
slice) subtracts the count from the object's lookup refcount, clamped at
zero (zero refcount = record absent from the table). -/
def forget_one (rc : Nat → Nat) (inode count : Nat) : Nat → Nat :=
  fun i => if i = inode then rc i - count else rc i

/-- The reply record handed to the caller-supplied sink. -/
structure DirEnt where
  ino : Nat
  off : Nat
  ty : Nat
  name : String
deriving DecidableEq

/-- The per-entry closure of readdir (source lines 463-481): resolve the
entry's canonical identity, immediately release the reference the resolve
just created, and report the resolved identity to the sink. -/
def readdir_entry_step (env : LookupEnv) (rc : Nat → Nat) (dir : Nat) (r : RawRec)
    (add_entry : DirEnt → Except Errno Nat) : (Nat → Nat) × Except Errno Nat :=
  match do_lookup env rc dir r.name with
  | .error e => (rc, .error e)
  | .ok (entry, rc1) =>
    let rc2 := forget_one rc1 entry.inode 1
    (rc2, add_entry { ino := entry.inode, off := r.d_off, ty := r.d_ty, name := r.name })

/-- The per-entry closure of readdirplus (source lines 496-517): resolve the
entry, report the resolve-derived identity, and release the just-created
reference only when the sink consumed 0 bytes (reply buffer full). -/
def readdirplus_entry_step (env : LookupEnv) (rc : Nat → Nat) (dir : Nat) (r : RawRec)
    (add_entry : DirEnt → Entry → Except Errno Nat) : (Nat → Nat) × Except Errno Nat :=
  match do_lookup env rc dir r.name with
  | .error e => (rc, .error e)
  | .ok (entry, rc1) =>
    let res := add_entry
      { ino := entry.attr_st_ino, off := r.d_off, ty := r.d_ty, name := r.name } entry
    match res with
    | .ok 0 => (forget_one rc1 entry.inode 1, res)
    | _ => (rc1, res)

/- ## File-mode constants and the node-type gate (claims C3, C7) -/

def S_IFMT : Nat := 0o170000

def S_IFREG : Nat := 0o100000

def S_IFDIR : Nat := 0o040000

def S_IFBLK : Nat := 0o060000

def S_IFCHR : Nat := 0o020000

/-- Modelled from the spec: `is_safe_inode` (defined outside the shown
source slice): an object may be opened for data I/O only if its cached mode
is a regular file or a directory. -/
def is_safe_inode (mode : Nat) : Bool :=
  mode &&& S_IFMT == S_IFREG || mode &&& S_IFMT == S_IFDIR

/-- The table/session state the open-family operations touch.  `cachedMode`
is the Object Table's cached file mode per object; `handles` maps handle
identifiers to their owning object. -/
structure OpenSt where
  cachedMode : Nat → Option Nat
  handles : Nat → Option Nat
  nextHandle : Nat
  noOpen : Bool
  noOpendir : Bool
  killprivV2 : Bool

/-- open_inode (source lines 32-43): look the object up in the table and
apply the node-type gate before opening a data descriptor.  The successful
host open is abstracted away (flag adjustment does not affect the gate). -/
def open_inode (st : OpenSt) (inode : Nat) : Except Errno Unit :=
  match st.cachedMode inode with
  | none => .error .EBADF
  | some m => if is_safe_inode m then .ok () else .error .EBADF

/-- do_open (source lines 182-226): open the descriptor through the
node-type gate, then register a new handle under a fresh identifier. -/
def do_open (st : OpenSt) (inode : Nat) : Except Errno (Option Nat) × OpenSt :=
  match open_inode st inode with
  | .error e => (.error e, st)
  | .ok _ =>
    let h := st.nextHandle
    (.ok (some h),
      { st with
        handles := fun k => if k = h then some inode else st.handles k,
        nextHandle := h + 1 })

/-- open (source lines 520-533): not supported under stateless-open. -/
def open_call (st : OpenSt) (inode : Nat) : Except Errno (Option Nat) × OpenSt :=
  if st.noOpen then (.error .ENOSYS, st) else do_open st inode

/-- opendir (source lines 390-403): not supported under stateless-opendir;
otherwise do_open with the directory flag (which does not affect the gate). -/
def opendir_call (st : OpenSt) (inode : Nat) : Except Errno (Option Nat) × OpenSt :=
  if st.noOpendir then (.error .ENOSYS, st) else do_open st inode

/-- Modelled from the spec: `do_release` (defined outside the shown source
slice) removes the HandleRecord after verifying it belongs to the claimed
object. -/
def do_release (st : OpenSt) (inode handle : Nat) : Except Errno Unit × OpenSt :=
  match st.handles handle with
  | none => (.error .EBADF, st)
  | some owner =>
    if owner = inode then
      (.ok (), { st with handles := fun k => if k = handle then none else st.handles k })
    else (.error .EBADF, st)

/-- release (source lines 535-550): not supported under stateless-open. -/
def release_call (st : OpenSt) (inode handle : Nat) : Except Errno Unit × OpenSt :=
  if st.noOpen then (.error .ENOSYS, st) else do_release st inode handle

/-- releasedir (source lines 405-418): not supported under
stateless-opendir. -/
def releasedir_call (st : OpenSt) (inode handle : Nat) : Except Errno Unit × OpenSt :=
  if st.noOpendir then (.error .ENOSYS, st) else do_release st inode handle

/-- flush (source lines 1038-1066): not supported under stateless-open;
otherwise dup-and-close the handle's descriptor (no table mutation). -/
def flush_call (st : OpenSt) (inode handle : Nat) : Except Errno Unit × OpenSt :=
  if st.noOpen then (.error .ENOSYS, st)
  else
    match st.handles handle with
    | none => (.error .EBADF, st)
    | some owner => if owner = inode then (.ok (), st) else (.error .EBADF, st)

/-- create's fallback path (source lines 577-589): when exclusive creation
reports that the file already exists, the existing object is opened through
`open_inode`, so the node-type gate applies (the credential and
privilege-clear scoping around it succeed and do not affect the gate). -/
def create_fallback_open (st : OpenSt) (inode : Nat) : Except Errno Unit :=
  open_inode st inode

def UMAX : Nat := 4294967295

/-- The cached mode of an object just created by mknod (source lines
919-951): the creating syscall receives `mode & !umask` and the lookup that
follows caches the host mode, whose type field is the one requested.  The
host-side effect of mknodat is modelled from the spec. -/
def mknod_cached_mode (mode umask : Nat) : Nat :=
  mode &&& (umask ^^^ UMAX)

/-- State after mknod created object `inode` and the follow-up lookup cached
its mode. -/
def mknod_model (st : OpenSt) (inode mode umask : Nat) : OpenSt :=
  { st with
    cachedMode := fun i =>
      if i = inode then some (mknod_cached_mode mode umask) else st.cachedMode i }

/- ## Attribute mutation, write and fallocate (claims C5, C8, C9) -/

/-- Kinds of syscalls and privilege adjustments these operations perform. -/
inductive EvK where
  | fchmodK
  | fchownK
  | ftruncK
  | futimensK
  | dropCapK
  | restoreCapK
  | openInodeK
  | statK
  | writeK
  | fallocK
  | fcntlK
deriving DecidableEq

/-- The host file the operation targets. -/
structure FileSt where
  mode : Nat
  size : Nat
  uid : Nat
  gid : Nat
  atime : Nat
  mtime : Nat
deriving DecidableEq

/-- One-time-negotiated session flags read by these operations, plus the
clock used for the set-timestamp-to-now variant. -/
structure Sess where
  killprivV2 : Bool
  sealSize : Bool
  noOpen : Bool
  now : Nat
deriving DecidableEq

/-- The state a single-file mutating operation sees: the host file, the
Object Table's cached mode for its inode, and the session flags. -/
structure FState where
  file : FileSt
  cachedMode : Nat
  sess : Sess
deriving DecidableEq

/-- The stat fields these operations read or set. -/
structure Stat64 where
  st_mode : Nat
  st_size : Nat
  st_uid : Nat
  st_gid : Nat
  st_atime : Nat
  st_mtime : Nat
deriving DecidableEq

/-- Freshly read attributes of a host file. -/
def statOf (f : FileSt) : Stat64 :=
  { st_mode := f.mode, st_size := f.size, st_uid := f.uid, st_gid := f.gid,
    st_atime := f.atime, st_mtime := f.mtime }

/-- The SetattrValid bits of the setattr request. -/
structure SetValid where
  mode : Bool
  uid : Bool
  gid : Bool
  size : Bool
  atime : Bool
  mtime : Bool
  atime_now : Bool
  mtime_now : Bool
  kill_suidgid : Bool
deriving DecidableEq

/-- Modelled from the spec: host effect of fchmod/fchmodat — permission
bits replaced, file type preserved. -/
def chmod_effect (f : FileSt) (m : Nat) : FileSt :=
  { f with mode := (f.mode &&& S_IFMT) ||| (m &&& 0o7777) }

/-- Modelled from the spec: host effect of fchownat with the u32::MAX
(minus one) leave-unchanged convention used by the source. -/
def chown_effect (f : FileSt) (u g : Nat) : FileSt :=
  { f with
    uid := if u = UMAX then f.uid else u,
    gid := if g = UMAX then f.gid else g }

/-- Modelled from the spec: host effect of ftruncate.  When the process's
ability to preserve suid/sgid has been suppressed (CAP_FSETID dropped), the
kernel clears the suid/sgid bits as a side effect of the size change. -/
def trunc_effect (capDropped : Bool) (f : FileSt) (sz : Nat) : FileSt :=
  { f with
    size := sz,
    mode := if capDropped then f.mode &&& 0o171777 else f.mode }

/-- Modelled from the spec: host effect of the positioned write, with the
same suid/sgid-clearing side effect when CAP_FSETID is dropped. -/
def write_effect (capDropped : Bool) (f : FileSt) (offset sz : Nat) : FileSt :=
  { f with
    size := max f.size (offset + sz),
    mode := if capDropped then f.mode &&& 0o171777 else f.mode }

def FALLOC_FL_KEEP_SIZE : Nat := 1

def FALLOC_FL_COLLAPSE_RANGE : Nat := 8

def FALLOC_FL_INSERT_RANGE : Nat := 32

/-- Modelled from the spec: host effect of fallocate64 — extends the file
when the keep-size bit is absent; never touches the mode bits (the process
keeps CAP_FSETID here). -/
def falloc_effect (f : FileSt) (mode offset len : Nat) : FileSt :=
  if mode &&& FALLOC_FL_KEEP_SIZE = 0 then
    { f with size := max f.size (offset + len) }
  else f

/-- Which fuse opcode invokes the size-sealing check. -/
inductive Opcode where
  | Write
  | Fallocate
deriving DecidableEq

/-- Modelled from the spec: `seal_size_check` (defined outside the shown
source slice): with size sealing active, any request that could change the
file's size is rejected with the permission error. -/
def seal_size_check (op : Opcode) (file_size offset size mode : Nat) :
    Except Errno Unit :=
  match op with
  | .Write => if file_size < offset + size then .error .EPERM else .ok ()
  | .Fallocate =>
    if (mode &&& FALLOC_FL_KEEP_SIZE = 0 ∧ file_size < offset + size)
        ∨ mode &&& (FALLOC_FL_COLLAPSE_RANGE ||| FALLOC_FL_INSERT_RANGE) ≠ 0 then
      .error .EPERM
    else .ok ()

/-- Outcome of one setattr sub-mutation: the file state reached so far, an
error if the sub-mutation failed (earlier effects are kept, never rolled
back), and the syscalls/privilege adjustments performed. -/
structure StepRes where
  file : FileSt
  err : Option Errno
  trace : List EvK

/-- Sequence two sub-mutations: a failure stops the chain. -/
def bindStep (x : StepRes) (g : FileSt → StepRes) : StepRes :=
  match x.err with
  | some _ => x
  | none =>
    let y := g x.file
    { file := y.file, err := y.err, trace := x.trace ++ y.trace }

/-- The permission-bits sub-mutation of setattr (source lines 766-779). -/
def chmod_block (ora : EvK → Bool) (v : SetValid) (attr : Stat64) (f : FileSt) :
    StepRes :=
  if v.mode then
    if ora .fchmodK then
      { file := chmod_effect f attr.st_mode, err := none, trace := [.fchmodK] }
    else
      { file := f, err := some .EINTR, trace := [.fchmodK] }
  else
    { file := f, err := none, trace := [] }

/-- The ownership sub-mutation of setattr (source lines 781-811). -/
def chown_block (ora : EvK → Bool) (v : SetValid) (attr : Stat64) (f : FileSt) :
    StepRes :=
  if v.uid || v.gid then
    let u := if v.uid then attr.st_uid else UMAX
    let g := if v.gid then attr.st_gid else UMAX
    if ora .fchownK then
      { file := chown_effect f u g, err := none, trace := [.fchownK] }
    else
      { file := f, err := some .EINTR, trace := [.fchownK] }
  else
    { file := f, err := none, trace := [] }

/-- The size sub-mutation of setattr (source lines 813-837): an optional
privilege-clear scope around the truncating syscall, restored on every exit
path; without a usable handle a fresh descriptor comes from `open_inode`,
so the node-type gate applies. -/
def size_block (ora : EvK → Bool) (sess : Sess) (cachedMode : Nat)
    (useHandle : Bool) (v : SetValid) (attr : Stat64) (f : FileSt) : StepRes :=
  if v.size then
    let kp := sess.killprivV2 && v.kill_suidgid
    let dropT : List EvK := if kp then [.dropCapK] else []
    let restT : List EvK := if kp then [.restoreCapK] else []
    if useHandle then
      if ora .ftruncK then
        { file := trunc_effect kp f attr.st_size, err := none,
          trace := dropT ++ [.ftruncK] ++ restT }
      else
        { file := f, err := some .EINTR, trace := dropT ++ [.ftruncK] ++ restT }
    else if is_safe_inode cachedMode then
      if ora .ftruncK then
        { file := trunc_effect kp f attr.st_size, err := none,
          trace := dropT ++ [.openInodeK, .ftruncK] ++ restT }
      else
        { file := f, err := some .EINTR, trace := dropT ++ [.openInodeK, .ftruncK] ++ restT }
    else
      { file := f, err := some .EBADF, trace := dropT ++ restT }
  else
    { file := f, err := none, trace := [] }

/-- The timestamps sub-mutation of setattr (source lines 839-877):
per-timestamp set-to-now / set-to-value / leave-unchanged selection. -/
def utimens_block (ora : EvK → Bool) (sess : Sess) (v : SetValid) (attr : Stat64)
    (f : FileSt) : StepRes :=
  if v.atime || v.mtime then
    let newAtime := if v.atime_now then sess.now
      else if v.atime then attr.st_atime else f.atime
    let newMtime := if v.mtime_now then sess.now
      else if v.mtime then attr.st_mtime else f.mtime
    if ora .futimensK then
      { file := { f with atime := newAtime, mtime := newMtime }, err := none,
        trace := [.futimensK] }
    else
      { file := f, err := some .EINTR, trace := [.futimensK] }
  else
    { file := f, err := none, trace := [] }

/-- setattr (source lines 730-880): size-sealing gate first, then the
sub-mutations in the fixed order permission bits, ownership, size,
timestamps, and finally a fresh re-read of the attributes.  `ora` says
which host syscalls succeed. -/
def setattr (ora : EvK → Bool) (st : FState) (attr : Stat64) (hasHandle : Bool)
    (v : SetValid) : Except Errno Stat64 × FState × List EvK :=
  let useHandle := !st.sess.noOpen && hasHandle
  if v.size && st.sess.sealSize then (.error .EPERM, st, [])
  else
    let r := bindStep (bindStep (bindStep (chmod_block ora v attr st.file)
      (chown_block ora v attr))
      (size_block ora st.sess st.cachedMode useHandle v attr))
      (utimens_block ora st.sess v attr)
    match r.err with
    | some e => (.error e, { st with file := r.file }, r.trace)
    | none =>
      if ora .statK then
        (.ok (statOf r.file), { st with file := r.file }, r.trace ++ [.statK])
      else
        (.error .EINTR, { st with file := r.file }, r.trace ++ [.statK])

/-- Tail of the write path (source lines 708-718): optional privilege-clear
scope around the data syscall, restored on every exit. -/
def write_tail (ora : EvK → Bool) (st : FState) (size offset : Nat)
    (fuse_kill : Bool) (t : List EvK) : Except Errno Nat × FState × List EvK :=
  let kp := st.sess.killprivV2 && fuse_kill
  let dropT : List EvK := if kp then [.dropCapK] else []
  let restT : List EvK := if kp then [.restoreCapK] else []
  if ora .writeK then
    (.ok size, { st with file := write_effect kp st.file offset size },
      t ++ dropT ++ [.writeK] ++ restT)
  else
    (.error .EINTR, st, t ++ dropT ++ [.writeK] ++ restT)

/-- write (source lines 681-719): resolve the descriptor (under
stateless-open this goes through `open_inode` and the node-type gate),
reconcile descriptor flags, apply the size-sealing gate, and only then the
privilege-clear scope and the data syscall. -/
def write_op (ora : EvK → Bool) (st : FState) (hasHandle : Bool)
    (size offset : Nat) (flagsDiffer : Bool) (fuse_kill : Bool) :
    Except Errno Nat × FState × List EvK :=
  let gate : Except Errno Unit :=
    if st.sess.noOpen then
      if is_safe_inode st.cachedMode then .ok () else .error .EBADF
    else if hasHandle then .ok () else .error .EBADF
  match gate with
  | .error e => (.error e, st, [])
  | .ok _ =>
    let t0 : List EvK := if flagsDiffer then [.fcntlK] else []
    if flagsDiffer && !ora .fcntlK then (.error .EINTR, st, t0)
    else if st.sess.sealSize then
      if ora .statK then
        match seal_size_check .Write st.file.size offset size 0 with
        | .error e => (.error e, st, t0 ++ [.statK])
        | .ok _ => write_tail ora st size offset fuse_kill (t0 ++ [.statK])
      else (.error .EINTR, st, t0 ++ [.statK])
    else write_tail ora st size offset fuse_kill t0

/-- Tail of the fallocate path (source lines 1301-1314): the space
(de)allocation syscall, with no privilege-clear wiring. -/
def falloc_tail (ora : EvK → Bool) (st : FState) (mode offset length : Nat)
    (t : List EvK) : Except Errno Unit × FState × List EvK :=
  if ora .fallocK then
    (.ok (), { st with file := falloc_effect st.file mode offset length },
      t ++ [.fallocK])
  else
    (.error .EINTR, st, t ++ [.fallocK])

/-- fallocate (source lines 1277-1315): resolve the descriptor, apply the
size-sealing gate, then the space-allocation syscall.  No privilege-clear
scope exists on this path. -/
def fallocate_op (ora : EvK → Bool) (st : FState) (mode offset length : Nat) :
    Except Errno Unit × FState × List EvK :=
  let gate : Except Errno Unit :=
    if st.sess.noOpen then
      if is_safe_inode st.cachedMode then .ok () else .error .EBADF
    else .ok ()
  match gate with
  | .error e => (.error e, st, [])
  | .ok _ =>
    if st.sess.sealSize then
      if ora .statK then
        match seal_size_check .Fallocate st.file.size offset length mode with
        | .error e => (.error e, st, [.statK])
        | .ok _ => falloc_tail ora st mode offset length [.statK]
      else (.error .EINTR, st, [.statK])
    else falloc_tail ora st mode offset length []

/-- getattr through `do_getattr` (source lines 228-254): a fresh stat of
the host file. -/
def getattr_op (ora : EvK → Bool) (st : FState) : Except Errno Stat64 × List EvK :=
  if ora .statK then (.ok (statOf st.file), [.statK]) else (.error .EINTR, [.statK])

/-- create (source lines 552-611) on the exclusive-create success path: the
new regular file's mode is the requested one masked by `!(umask & 0o777)`;
the host-side effect of the creating open is modelled from the spec. -/
def create_model (sess : Sess) (args_mode args_umask : Nat) : FState :=
  let m := S_IFREG ||| ((args_mode &&& ((args_umask &&& 0o777) ^^^ UMAX)) &&& 0o7777)
  { file := { mode := m, size := 0, uid := 0, gid := 0, atime := 0, mtime := 0 },
    cachedMode := m,
    sess := sess }

/-- An oracle under which every host syscall succeeds. -/
def allOk : EvK → Bool := fun _ => true

/-- A SetattrValid with only the size bit (used by the node-type-gate
scenario for the setattr size path). -/
def sizeOnlyValid : SetValid :=
  { mode := false, uid := false, gid := false, size := true, atime := false,
    mtime := false, atime_now := false, mtime_now := false, kill_suidgid := false }

/- ## Concrete instances used by witnesses and counterexamples -/

/-- A "." record of the raw buffer: skipped without invoking the sink. -/
def dotRec : RawRec :=
  { d_ino := 1, d_off := 1, d_ty := 4, nameDot := true, nameValid := true, name := "." }

/-- An ordinary record of the raw buffer. -/
def fileRec : RawRec :=
  { d_ino := 2, d_off := 2, d_ty := 8, nameDot := false, nameValid := true, name := "a" }

/-- A sink that fails on every record. -/
def failSink : RawRec → Except Errno Nat := fun _ => .error .EINTR

/-- A concrete resolve environment: directory 1 has the entry "a" with
canonical identity 5; host stat inode numbers are offset by 100. -/
def exLookupEnv : LookupEnv :=
  { children := fun p n => if p = 1 ∧ n = "a" then some 5 else none,
    hostIno := fun i => i + 100 }

/-- The empty Object Table (every refcount 0). -/
def exRc : Nat → Nat := fun _ => 0

/-- A sink accepting every entry with 16 bytes consumed. -/
def exAdd1 : DirEnt → Except Errno Nat := fun _ => .ok 16

/-- A readdirplus sink reporting a full reply buffer (0 consumed). -/
def exAdd2 : DirEnt → Entry → Except Errno Nat := fun _ _ => .ok 0

/-- A table state whose object 7 has a block-device cached mode. -/
def exOpenSt : OpenSt :=
  { cachedMode := fun i => if i = 7 then some 0o60777 else none,
    handles := fun _ => none, nextHandle := 1,
    noOpen := false, noOpendir := false, killprivV2 := true }

/-- A session that negotiated stateless-open and stateless-opendir. -/
def statelessSt : OpenSt :=
  { cachedMode := fun _ => some 0o100644,
    handles := fun _ => none, nextHandle := 1,
    noOpen := true, noOpendir := true, killprivV2 := false }

/-- A session with the size-sealing flag active. -/
def sealedSess : Sess := { killprivV2 := true, sealSize := true, noOpen := false, now := 0 }

/-- A 100-byte regular file under a size-sealed session. -/
def sealedFState : FState :=
  { file := { mode := 0o100644, size := 100, uid := 0, gid := 0, atime := 0, mtime := 0 },
    cachedMode := 0o100644, sess := sealedSess }

/-- An unsealed session used by the setattr-composition scenario. -/
def c8Sess : Sess := { killprivV2 := true, sealSize := false, noOpen := false, now := 7 }

/-- A regular file under `c8Sess`. -/
def c8FState : FState :=
  { file := { mode := 0o100600, size := 10, uid := 1, gid := 1, atime := 2, mtime := 3 },
    cachedMode := 0o100600, sess := c8Sess }

/-- A setattr request changing permission bits and size together. -/
def c8Valid : SetValid :=
  { mode := true, uid := false, gid := false, size := true, atime := false,
    mtime := false, atime_now := false, mtime_now := false, kill_suidgid := false }

/-- A request attribute block. -/
def c8Attr : Stat64 :=
  { st_mode := 0o644, st_size := 0, st_uid := 0, st_gid := 0, st_atime := 9, st_mtime := 9 }

/-- An oracle under which only the truncating syscall fails. -/
def oracle_no_trunc : EvK → Bool
  | .ftruncK => false
  | _ => true

/-- The session of the suid/sgid scenario: killpriv negotiated, no seal. -/
def c9Sess : Sess := { killprivV2 := true, sealSize := false, noOpen := false, now := 0 }

/-- The scenario's setattr request: size change with the kill-suid flag. -/
def c9Valid : SetValid :=
  { mode := false, uid := false, gid := false, size := true, atime := false,
    mtime := false, atime_now := false, mtime_now := false, kill_suidgid := true }

/-- The scenario's request attributes: size 4096. -/
def c9Attr : Stat64 :=
  { st_mode := 0, st_size := 4096, st_uid := 0, st_gid := 0, st_atime := 0, st_mtime := 0 }

/-- A file freshly created with mode bits 0o6777 (suid+sgid+0777). -/
def c9State0 : FState := create_model c9Sess 0o6777 0

/-- State after the scenario's size-4096 setattr with kill-suid. -/
def c9AfterSetattr : FState := (setattr allOk c9State0 c9Attr false c9Valid).2.1

/-- State after the scenario's subsequent extending fallocate. -/
def c9AfterFalloc : FState := (fallocate_op allOk c9AfterSetattr 0 4096 4096).2.1

/- ## Theorems -/

theorem stepObj_resolve (c : Nat) :
    stepObj (refcountState c) ObjOp.resolve = refcountState (c + 1) := by
  by_cases hc : c = 0 <;> simp [stepObj, resolve_obj, refcountState, hc]

theorem stepObj_release (c n : Nat) (h : n ≤ c) :
    stepObj (refcountState c) (ObjOp.release n) = refcountState (c - n) := by
  by_cases hc : c = 0
  · have hn : n = 0 := by omega
    subst hc
    subst hn
    simp [stepObj, release_obj, refcountState]
  · by_cases hcn : c ≤ n
    · have he : c = n := by omega
      subst he
      simp [stepObj, release_obj, refcountState, hc]
    · have hne : c - n ≠ 0 := by omega
      simp [stepObj, release_obj, refcountState, hc, hcn, hne]

theorem runObj_wf : ∀ (ops : List ObjOp) (c : Nat), wfObj c ops = true →
    runObj ops (refcountState c) = refcountState (c + resolvesOf ops - releasesOf ops)
  | [], c, _ => by simp [runObj, resolvesOf, releasesOf]
  | .resolve :: rest, c, h => by
    have h1 : wfObj (c + 1) rest = true := by simpa [wfObj] using h
    have ih := runObj_wf rest (c + 1) h1
    have hstep : runObj (ObjOp.resolve :: rest) (refcountState c)
        = runObj rest (stepObj (refcountState c) ObjOp.resolve) := rfl
    rw [hstep, stepObj_resolve, ih]
    congr 1
    simp only [resolvesOf, releasesOf]
    omega
  | .release n :: rest, c, h => by
    simp only [wfObj, Bool.and_eq_true, decide_eq_true_eq] at h
    obtain ⟨hnc, hwf⟩ := h
    have ih := runObj_wf rest (c - n) hwf
    have hstep : runObj (ObjOp.release n :: rest) (refcountState c)
        = runObj rest (stepObj (refcountState c) (ObjOp.release n)) := rfl
    rw [hstep, stepObj_release c n hnc, ih]
    congr 1
    simp only [resolvesOf, releasesOf]
    omega

/-- C1 is false as the claim states it: with the clamped release semantics,
after the concrete call sequence resolve, release 2, resolve the object is
present in the table although its cumulative resolves (2) do not exceed its
cumulative releases (2). -/
theorem c1_object_table_counterexample :
    ¬ ((runObj [ObjOp.resolve, ObjOp.release 2, ObjOp.resolve] none).isSome
      ↔ releasesOf [ObjOp.resolve, ObjOp.release 2, ObjOp.resolve]
        < resolvesOf [ObjOp.resolve, ObjOp.release 2, ObjOp.resolve]) := by
  decide

/-- C1 (amended): for every well-formed sequence of resolve/release calls on
one object (no release returns more references than are currently held, the
FUSE protocol guarantee), the object is present in the Object Table iff its
cumulative resolves exceed its cumulative releases; a release removes a
present record exactly when it takes the refcount to zero, never before,
and a release on an already-absent record never removes anything again. -/
theorem c1_object_table_amended (ops : List ObjOp) (h : wfObj 0 ops = true) :
    ((runObj ops none).isSome ↔ releasesOf ops < resolvesOf ops)
    ∧ (∀ c n, 0 < c → n ≤ c → (release_obj n (some c) = none ↔ n = c))
    ∧ (∀ n, release_obj n none = none) := by
  refine ⟨?_, ?_, ?_⟩
  · have h0 : (none : Option Nat) = refcountState 0 := rfl
    rw [h0, runObj_wf ops 0 h]
    rcases Nat.lt_or_ge (releasesOf ops) (resolvesOf ops) with hlt | hge
    · have hne : 0 + resolvesOf ops - releasesOf ops ≠ 0 := by omega
      unfold refcountState
      rw [if_neg hne]
      simpa using hlt
    · have hz : 0 + resolvesOf ops - releasesOf ops = 0 := by omega
      unfold refcountState
      rw [if_pos hz]
      simp only [Option.isSome_none, Bool.false_eq_true, false_iff]
      omega
  · intro c n hc hnc
    constructor
    · intro hrel
      by_contra hne
      have hlt : ¬ c ≤ n := by omega
      simp [release_obj, hlt] at hrel
    · intro he
      subst he
      simp [release_obj]
  · intro n
    simp [release_obj]

/-- Witness for the amended C1 at a concrete well-formed sequence. -/
theorem c1_object_table_witness :
    ((runObj [ObjOp.resolve, ObjOp.resolve, ObjOp.release 1] none).isSome
      ↔ releasesOf [ObjOp.resolve, ObjOp.resolve, ObjOp.release 1]
        < resolvesOf [ObjOp.resolve, ObjOp.resolve, ObjOp.release 1])
    ∧ (∀ c n, 0 < c → n ≤ c → (release_obj n (some c) = none ↔ n = c))
    ∧ (∀ n, release_obj n none = none) :=
  c1_object_table_amended [ObjOp.resolve, ObjOp.resolve, ObjOp.release 1] (by decide)

/-- C6: every entry-creating or renaming operation rejects an empty name, a
name containing a path separator, and the names "." and ".." with the
invalid-argument error; the pure resolve operation (lookup) rejects only
names containing a path separator and lets "." and ".." through. -/
theorem c6_path_component_validation (name : List Char) (rest : Except Errno Unit) :
    (bad_component name →
      mkdir_call name rest = .error .EINVAL
      ∧ mknod_call name rest = .error .EINVAL
      ∧ create_call name rest = .error .EINVAL
      ∧ link_call name rest = .error .EINVAL
      ∧ symlink_call name rest = .error .EINVAL
      ∧ unlink_call name rest = .error .EINVAL
      ∧ rmdir_call name rest = .error .EINVAL
      ∧ (∀ other, rename_call name other rest = .error .EINVAL)
      ∧ (∀ other, ¬ bad_component other → rename_call other name rest = .error .EINVAL))
    ∧ ('/' ∈ name → lookup_call name rest = .error .EINVAL)
    ∧ ('/' ∉ name → lookup_call name rest = rest)
    ∧ lookup_call ['.'] rest = rest
    ∧ lookup_call ['.', '.'] rest = rest := by
  have hval : ∀ m : List Char, bad_component m →
      validate_path_component m = .error .EINVAL := by
    intro m hm
    have hm2 : m = [] ∨ m = ['.'] ∨ m = ['.', '.'] ∨ '/' ∈ m := hm
    unfold validate_path_component
    rw [if_pos hm2]
  have hvalok : ∀ m : List Char, ¬ bad_component m →
      validate_path_component m = .ok () := by
    intro m hm
    have hm2 : ¬ (m = [] ∨ m = ['.'] ∨ m = ['.', '.'] ∨ '/' ∈ m) := hm
    unfold validate_path_component
    rw [if_neg hm2]
  refine ⟨?_, ?_, ?_, ?_, ?_⟩
  · intro h
    have hv := hval name h
    refine ⟨?_, ?_, ?_, ?_, ?_, ?_, ?_, ?_, ?_⟩
    · simp [mkdir_call, with_validated_name, hv]
    · simp [mknod_call, with_validated_name, hv]
    · simp [create_call, with_validated_name, hv]
    · simp [link_call, with_validated_name, hv]
    · simp [symlink_call, with_validated_name, hv]
    · simp [unlink_call, with_validated_name, hv]
    · simp [rmdir_call, with_validated_name, hv]
    · intro other
      simp [rename_call, with_validated_name, hv]
    · intro other hother
      simp [rename_call, with_validated_name, hvalok other hother, hv]
  · intro h
    simp [lookup_call, lookup_name_check, h]
  · intro h
    simp [lookup_call, lookup_name_check, h]
  · simp [lookup_call, lookup_name_check]
  · simp [lookup_call, lookup_name_check]

/-- Witness for C6: the name ".." is rejected by mkdir and rename but passes
the lookup check; a slash-bearing name is rejected by lookup too. -/
theorem c6_path_component_validation_witness :
    mkdir_call ['.', '.'] (.ok ()) = .error .EINVAL
    ∧ rename_call ['.', '.'] ['a'] (.ok ()) = .error .EINVAL
    ∧ lookup_call ['.', '.'] (.ok ()) = .ok ()
    ∧ lookup_call ['a', '/', 'b'] (.ok ()) = .error .EINVAL := by
  have h1 := c6_path_component_validation ['.', '.'] (Except.ok ())
  have h2 := c6_path_component_validation ['a', '/', 'b'] (Except.ok ())
  exact ⟨(h1.1 (by decide)).1, (h1.1 (by decide)).2.2.2.2.2.2.2.1 ['a'],
    h1.2.2.2.2, h2.2.1 (by decide)⟩

/-- C10: a directory enumeration with requested reply size 0 returns success
with no entries delivered and no reposition or bulk read performed on the
directory descriptor; with the session's no-readdir flag set, both readdir
and readdirplus likewise return success with no entries and no descriptor
activity. -/
theorem c10_readdir_zero_size (size : Nat) (dirdata : Except Errno Unit)
    (buf : List RawRec) (sink : RawRec → Except Errno Nat) (noReaddir : Bool) :
    do_readdir 0 dirdata buf sink = ((.ok (), 0), [])
    ∧ (noReaddir = true →
      readdir_call noReaddir size dirdata buf sink = ((.ok (), 0), [])
      ∧ readdirplus_call noReaddir size dirdata buf sink = ((.ok (), 0), [])) := by
  refine ⟨rfl, ?_⟩
  intro h
  subst h
  exact ⟨rfl, rfl⟩

/-- Witness for C10 at a concrete buffer, handle outcome and sink. -/
theorem c10_readdir_zero_size_witness :
    do_readdir 0 (.ok ()) [fileRec] failSink = ((.ok (), 0), [])
    ∧ (readdir_call true 4096 (.ok ()) [fileRec] failSink = ((.ok (), 0), [])
      ∧ readdirplus_call true 4096 (.ok ()) [fileRec] failSink = ((.ok (), 0), [])) :=
  ⟨(c10_readdir_zero_size 4096 (.ok ()) [fileRec] failSink true).1,
    (c10_readdir_zero_size 4096 (.ok ()) [fileRec] failSink true).2 rfl⟩

theorem process_dirents_not_first_ok (sink : RawRec → Except Errno Nat) :
    ∀ (recs : List RawRec), (∀ q ∈ recs, q.nameValid = true) →
      (process_dirents sink recs false).1 = .ok ()
  | [], _ => rfl
  | q :: qs, h => by
    have hq : q.nameValid = true := h q (List.mem_cons_self q qs)
    have hqs : ∀ p ∈ qs, p.nameValid = true := fun p hp => h p (List.mem_cons_of_mem q hp)
    have ih := process_dirents_not_first_ok sink qs hqs
    by_cases hd : q.nameDot
    · simpa [process_dirents, hd] using ih
    · rcases hsq : sink q with e | n
      · simp [process_dirents, hd, hq, hsq]
      · rcases n with _ | k
        · simp [process_dirents, hd, hq, hsq]
        · simp [process_dirents, hd, hq, hsq, ih]

/-- C2 is false as the claim states it: on the concrete buffer whose first
record is the skipped "." entry, the sink fails on the only record it is
ever invoked on, no record has been accepted, and yet the call discards
the failure and returns success. -/
theorem c2_readdir_failure_policy_counterexample :
    failSink fileRec = .error .EINTR
    ∧ process_dirents failSink [dotRec, fileRec] true = (.ok (), 0)
    ∧ (process_dirents failSink [dotRec, fileRec] true).1 ≠ .error .EINTR := by
  exact ⟨rfl, rfl, fun h => nomatch h⟩

/-- C2 (amended): a per-entry sink failure is propagated to the caller iff
it occurs while processing the very first record of the raw buffer; a sink
failure at any later record — even when every earlier record was a skipped
"." or ".." entry and no record was accepted yet — is discarded and the
call returns success with the entries already collected. -/
theorem c2_readdir_failure_policy_amended
    (r : RawRec) (rest : List RawRec) (sink : RawRec → Except Errno Nat) (e : Errno)
    (recs : List RawRec)
    (hdot : r.nameDot = false) (hvalid : r.nameValid = true)
    (hfail : sink r = .error e)
    (hnames : ∀ q ∈ recs, q.nameValid = true) :
    (process_dirents sink (r :: rest) true).1 = .error e
    ∧ (process_dirents sink recs false).1 = .ok () := by
  constructor
  · simp [process_dirents, hdot, hvalid, hfail]
  · exact process_dirents_not_first_ok sink recs hnames

/-- Witness for the amended C2: a first-record failure propagates; the same
failing sink applied past the first record is discarded. -/
theorem c2_readdir_failure_policy_witness :
    (process_dirents failSink [fileRec, dotRec] true).1 = .error .EINTR
    ∧ (process_dirents failSink [fileRec] false).1 = .ok () :=
  c2_readdir_failure_policy_amended fileRec [dotRec] failSink .EINTR [fileRec]
    rfl rfl rfl (by decide)

/-- C4: in both enumeration variants every entry's reported identity comes
from the resolve collaborator applied to (directory, entry name), never from
the raw buffer's inode number; the plain variant's net effect on the
object's lookup refcount is zero (the reference the resolve just created is
released immediately), while the plus variant keeps the refcount incremented
exactly unless the sink reported 0 bytes consumed, in which case the
just-created reference is released as well. -/
theorem c4_enumeration_refcount (env : LookupEnv) (rc : Nat → Nat) (dir : Nat)
    (r : RawRec) (add1 : DirEnt → Except Errno Nat)
    (add2 : DirEnt → Entry → Except Errno Nat) (c : Nat)
    (h : env.children dir r.name = some c) :
    (readdir_entry_step env rc dir r add1).2
      = add1 { ino := c, off := r.d_off, ty := r.d_ty, name := r.name }
    ∧ (readdir_entry_step env rc dir r add1).1 = rc
    ∧ (readdirplus_entry_step env rc dir r add2).2
      = add2 { ino := env.hostIno c, off := r.d_off, ty := r.d_ty, name := r.name }
        { inode := c, attr_st_ino := env.hostIno c }
    ∧ (add2 { ino := env.hostIno c, off := r.d_off, ty := r.d_ty, name := r.name }
          { inode := c, attr_st_ino := env.hostIno c } = .ok 0 →
        (readdirplus_entry_step env rc dir r add2).1 = rc)
    ∧ (add2 { ino := env.hostIno c, off := r.d_off, ty := r.d_ty, name := r.name }
          { inode := c, attr_st_ino := env.hostIno c } ≠ .ok 0 →
        (readdirplus_entry_step env rc dir r add2).1
          = fun i => if i = c then rc i + 1 else rc i) := by
  have hforget : forget_one (fun i => if i = c then rc i + 1 else rc i) c 1 = rc := by
    funext i
    by_cases hic : i = c <;> simp [forget_one, hic]
  refine ⟨?_, ?_, ?_, ?_, ?_⟩
  · simp [readdir_entry_step, do_lookup, h]
  · simp [readdir_entry_step, do_lookup, h, hforget]
  · simp only [readdirplus_entry_step, do_lookup, h]
    rcases hres : add2 { ino := env.hostIno c, off := r.d_off, ty := r.d_ty, name := r.name }
        { inode := c, attr_st_ino := env.hostIno c } with e | n
    · simp [hres]
    · rcases n with _ | k <;> simp [hres]
  · intro hres
    simp only [readdirplus_entry_step, do_lookup, h]
    simp [hres, hforget]
  · intro hres
    rcases hr2 : add2 { ino := env.hostIno c, off := r.d_off, ty := r.d_ty, name := r.name }
        { inode := c, attr_st_ino := env.hostIno c } with e | n
    · simp [readdirplus_entry_step, do_lookup, h, hr2]
    · rcases n with _ | k
      · exact absurd hr2 hres
      · simp [readdirplus_entry_step, do_lookup, h, hr2]

/-- Witness for C4 at a concrete environment, record and sinks (the
readdirplus sink reports a full reply buffer, so the reference is given
back). -/
theorem c4_enumeration_refcount_witness :
    (readdir_entry_step exLookupEnv exRc 1 fileRec exAdd1).1 = exRc
    ∧ (readdirplus_entry_step exLookupEnv exRc 1 fileRec exAdd2).1 = exRc :=
  ⟨(c4_enumeration_refcount exLookupEnv exRc 1 fileRec exAdd1 exAdd2 5 (by decide)).2.1,
    (c4_enumeration_refcount exLookupEnv exRc 1 fileRec exAdd1 exAdd2 5
      (by decide)).2.2.2.1 rfl⟩

/-- C7: under stateless-open, the open, release and flush operations return
the not-supported error with the table state unchanged; under
stateless-opendir, opendir and releasedir do the same. -/
theorem c7_stateless_enosys (st : OpenSt) (inode handle : Nat) :
    (st.noOpen = true →
      open_call st inode = (.error .ENOSYS, st)
      ∧ release_call st inode handle = (.error .ENOSYS, st)
      ∧ flush_call st inode handle = (.error .ENOSYS, st))
    ∧ (st.noOpendir = true →
      opendir_call st inode = (.error .ENOSYS, st)
      ∧ releasedir_call st inode handle = (.error .ENOSYS, st)) := by
  constructor
  · intro h
    refine ⟨?_, ?_, ?_⟩ <;> simp [open_call, release_call, flush_call, h]
  · intro h
    refine ⟨?_, ?_⟩ <;> simp [opendir_call, releasedir_call, h]

/-- Witness for C7 at a concrete stateless session. -/
theorem c7_stateless_enosys_witness :
    open_call statelessSt 1 = (.error .ENOSYS, statelessSt)
    ∧ release_call statelessSt 1 2 = (.error .ENOSYS, statelessSt)
    ∧ flush_call statelessSt 1 2 = (.error .ENOSYS, statelessSt)
    ∧ opendir_call statelessSt 1 = (.error .ENOSYS, statelessSt)
    ∧ releasedir_call statelessSt 1 2 = (.error .ENOSYS, statelessSt) :=
  ⟨((c7_stateless_enosys statelessSt 1 2).1 rfl).1,
    ((c7_stateless_enosys statelessSt 1 2).1 rfl).2.1,
    ((c7_stateless_enosys statelessSt 1 2).1 rfl).2.2,
    ((c7_stateless_enosys statelessSt 1 2).2 rfl).1,
    ((c7_stateless_enosys statelessSt 1 2).2 rfl).2⟩

/-- C3: an object whose cached mode is neither regular-file nor directory
cannot be opened for data I/O: open (and opendir) fail with the
bad-descriptor error, the open inside create's fallback fails the same way,
and so does the fresh-descriptor open on setattr's size path; this holds in
particular for any object cached right after a mknod that created it with a
non-regular, non-directory type, whatever permissive mode bits it carried. -/
theorem c3_node_type_gate (st : OpenSt) (inode m : Nat)
    (hm : st.cachedMode inode = some m) (hsafe : is_safe_inode m = false) :
    (st.noOpen = false → open_call st inode = (.error .EBADF, st))
    ∧ (st.noOpendir = false → opendir_call st inode = (.error .EBADF, st))
    ∧ create_fallback_open st inode = .error .EBADF
    ∧ (∀ (ora : EvK → Bool) (fs : FState) (attr : Stat64),
        fs.cachedMode = m → fs.sess.sealSize = false →
        (setattr ora fs attr false sizeOnlyValid).1 = .error .EBADF)
    ∧ (∀ (mode umask : Nat),
        is_safe_inode (mknod_cached_mode mode umask) = false →
        st.noOpen = false →
        open_call (mknod_model st inode mode umask) inode
          = (.error .EBADF, mknod_model st inode mode umask)) := by
  refine ⟨?_, ?_, ?_, ?_, ?_⟩
  · intro h
    simp [open_call, do_open, open_inode, hm, hsafe, h]
  · intro h
    simp [opendir_call, do_open, open_inode, hm, hsafe, h]
  · simp [create_fallback_open, open_inode, hm, hsafe]
  · intro ora fs attr hcm hsz
    simp [setattr, sizeOnlyValid, hsz, bindStep, chmod_block, chown_block,
      size_block, utimens_block, hcm, hsafe]
  · intro mode umask hs hno
    simp [open_call, do_open, open_inode, mknod_model, hs, hno]

/-- Witness for C3 at a concrete block-device object (mode 0o60777),
including one freshly created through the mknod model with permissive
bits. -/
theorem c3_node_type_gate_witness :
    open_call exOpenSt 7 = (.error .EBADF, exOpenSt)
    ∧ create_fallback_open exOpenSt 7 = .error .EBADF
    ∧ open_call (mknod_model exOpenSt 7 0o60777 0) 7
        = (.error .EBADF, mknod_model exOpenSt 7 0o60777 0) := by
  have h := c3_node_type_gate exOpenSt 7 0o60777 (by decide) (by decide)
  exact ⟨h.1 rfl, h.2.2.1, h.2.2.2.2 0o60777 0 (by decide) rfl⟩

/-- C5: with the size-sealing flag active, a setattr carrying the size bit,
an extending write and an extending (mode 0) fallocate all return the
permission error before the size-changing syscall runs and before any
privilege-clear adjustment: the state is unchanged and the trace contains
neither the data/truncate/allocate syscall nor a capability drop. -/
theorem c5_seal_size_gate (st : FState) (attr : Stat64)
    (hasHandle flagsDiffer fuse_kill : Bool) (v : SetValid) (ora : EvK → Bool)
    (wsize woffset fmode foffset flength : Nat) :
    (v.size = true → st.sess.sealSize = true →
      setattr ora st attr hasHandle v = (.error .EPERM, st, []))
    ∧ (st.sess.sealSize = true → st.sess.noOpen = false → hasHandle = true →
        ora .fcntlK = true → ora .statK = true →
        st.file.size < woffset + wsize →
        (write_op ora st hasHandle wsize woffset flagsDiffer fuse_kill).1 = .error .EPERM
        ∧ (write_op ora st hasHandle wsize woffset flagsDiffer fuse_kill).2.1 = st
        ∧ EvK.writeK ∉ (write_op ora st hasHandle wsize woffset flagsDiffer fuse_kill).2.2
        ∧ EvK.dropCapK ∉ (write_op ora st hasHandle wsize woffset flagsDiffer fuse_kill).2.2)
    ∧ (st.sess.sealSize = true → st.sess.noOpen = false → ora .statK = true →
        fmode &&& FALLOC_FL_KEEP_SIZE = 0 → st.file.size < foffset + flength →
        (fallocate_op ora st fmode foffset flength).1 = .error .EPERM
        ∧ (fallocate_op ora st fmode foffset flength).2.1 = st
        ∧ EvK.fallocK ∉ (fallocate_op ora st fmode foffset flength).2.2
        ∧ EvK.dropCapK ∉ (fallocate_op ora st fmode foffset flength).2.2) := by
  refine ⟨?_, ?_, ?_⟩
  · intro hv hs
    simp [setattr, hv, hs]
  · intro hs hno hh hf hstat hlt
    have hw : write_op ora st hasHandle wsize woffset flagsDiffer fuse_kill
        = (.error .EPERM, st, (if flagsDiffer then [EvK.fcntlK] else []) ++ [EvK.statK]) := by
      simp [write_op, hno, hh, hf, hstat, hs, seal_size_check, hlt]
    rw [hw]
    refine ⟨rfl, rfl, ?_, ?_⟩ <;> cases flagsDiffer <;> simp
  · intro hs hno hstat hk hlt
    have hw : fallocate_op ora st fmode foffset flength
        = (.error .EPERM, st, [EvK.statK]) := by
      simp [fallocate_op, hno, hstat, hs, seal_size_check, hk, hlt]
    rw [hw]
    refine ⟨rfl, rfl, ?_, ?_⟩ <;> simp

/-- Witness for C5 at a concrete sealed session and extending requests. -/
theorem c5_seal_size_gate_witness :
    setattr allOk sealedFState c8Attr true sizeOnlyValid = (.error .EPERM, sealedFState, [])
    ∧ (write_op allOk sealedFState true 50 80 false false).1 = .error .EPERM
    ∧ (fallocate_op allOk sealedFState 0 80 50).1 = .error .EPERM := by
  have h := c5_seal_size_gate sealedFState c8Attr true false false sizeOnlyValid allOk
    50 80 0 80 50
  exact ⟨h.1 rfl rfl, (h.2.1 rfl rfl rfl rfl rfl (by decide)).1,
    (h.2.2 rfl rfl rfl (by decide) (by decide)).1⟩

theorem chmod_block_trace (ora : EvK → Bool) (v : SetValid) (attr : Stat64)
    (f : FileSt) : TraceSub (chmod_block ora v attr f).trace [EvK.fchmodK] := by
  simp only [chmod_block]
  split_ifs <;> simp only [] <;> decide

theorem chown_block_trace (ora : EvK → Bool) (v : SetValid) (attr : Stat64)
    (f : FileSt) : TraceSub (chown_block ora v attr f).trace [EvK.fchownK] := by
  simp only [chown_block]
  split_ifs <;> simp only [] <;> decide

theorem size_block_trace (ora : EvK → Bool) (sess : Sess) (cachedMode : Nat)
    (useHandle : Bool) (v : SetValid) (attr : Stat64) (f : FileSt) :
    TraceSub (size_block ora sess cachedMode useHandle v attr f).trace
      [EvK.dropCapK, EvK.openInodeK, EvK.ftruncK, EvK.restoreCapK] := by
  simp only [size_block]
  split_ifs <;> simp only [] <;> decide

theorem utimens_block_trace (ora : EvK → Bool) (sess : Sess) (v : SetValid)
    (attr : Stat64) (f : FileSt) :
    TraceSub (utimens_block ora sess v attr f).trace [EvK.futimensK] := by
  simp only [utimens_block]
  split_ifs <;> simp only [] <;> decide

theorem bindStep_trace_sub {x : StepRes} {g : FileSt → StepRes} {c1 c2 : List EvK}
    (h1 : TraceSub x.trace c1) (h2 : ∀ f, TraceSub (g f).trace c2) :
    TraceSub (bindStep x g).trace (c1 ++ c2) := by
  unfold bindStep
  cases hx : x.err with
  | some e => exact h1.trans (List.sublist_append_left c1 c2)
  | none => exact List.Sublist.append h1 (h2 x.file)

/-- C8: setattr applies its sub-mutations in the fixed order permission
bits, ownership, size, timestamps (every run's syscall trace is a sublist
of that canonical order, so each step happens at most once and never out of
order); the failure of a later sub-mutation keeps the effects of the
earlier ones (shown for a failing truncate after a successful chmod, with
the timestamp step never reached); and every successful run returns
attributes freshly re-read from the final file state rather than
synthesized from the request. -/
theorem c8_setattr_composition :
    (∀ (ora : EvK → Bool) (st : FState) (attr : Stat64) (hasHandle : Bool)
        (v : SetValid),
      TraceSub (setattr ora st attr hasHandle v).2.2
        [EvK.fchmodK, EvK.fchownK, EvK.dropCapK, EvK.openInodeK, EvK.ftruncK,
          EvK.restoreCapK, EvK.futimensK, EvK.statK])
    ∧ (∀ (ora : EvK → Bool) (st : FState) (attr : Stat64) (v : SetValid),
        v.mode = true → v.uid = false → v.gid = false → v.size = true →
        st.sess.noOpen = false → st.sess.sealSize = false →
        ora .fchmodK = true → ora .ftruncK = false →
        (setattr ora st attr true v).1 = .error .EINTR
        ∧ (setattr ora st attr true v).2.1
          = { st with file := chmod_effect st.file attr.st_mode }
        ∧ EvK.futimensK ∉ (setattr ora st attr true v).2.2)
    ∧ (∀ (ora : EvK → Bool) (st : FState) (attr : Stat64) (hasHandle : Bool)
        (v : SetValid) (s : Stat64),
        (setattr ora st attr hasHandle v).1 = .ok s →
        s = statOf (setattr ora st attr hasHandle v).2.1.file) := by
  refine ⟨?_, ?_, ?_⟩
  · intro ora st attr hasHandle v
    have hr : TraceSub (bindStep (bindStep (bindStep (chmod_block ora v attr st.file)
        (chown_block ora v attr))
        (size_block ora st.sess st.cachedMode (!st.sess.noOpen && hasHandle) v attr))
        (utimens_block ora st.sess v attr)).trace
        [EvK.fchmodK, EvK.fchownK, EvK.dropCapK, EvK.openInodeK, EvK.ftruncK,
          EvK.restoreCapK, EvK.futimensK] := by
      have hs := bindStep_trace_sub (bindStep_trace_sub (bindStep_trace_sub
        (chmod_block_trace ora v attr st.file)
        (fun f => chown_block_trace ora v attr f))
        (fun f => size_block_trace ora st.sess st.cachedMode
          (!st.sess.noOpen && hasHandle) v attr f))
        (fun f => utimens_block_trace ora st.sess v attr f)
      simpa using hs
    unfold setattr
    by_cases hseal : (v.size && st.sess.sealSize) = true
    · simp [hseal]
    · rw [Bool.not_eq_true] at hseal
      simp only [hseal, Bool.false_eq_true, if_false]
      cases hre : (bindStep (bindStep (bindStep (chmod_block ora v attr st.file)
          (chown_block ora v attr))
          (size_block ora st.sess st.cachedMode (!st.sess.noOpen && hasHandle) v attr))
          (utimens_block ora st.sess v attr)).err with
      | some e =>
        simp only
        exact hr.trans (by decide)
      | none =>
        by_cases hstat : ora .statK = true <;> simp only [hstat, if_true, if_false] <;>
          exact List.Sublist.append hr (List.Sublist.refl [EvK.statK])
  · intro ora st attr v hm hu hg hsz hno hseal hcm htr
    have h1 : chmod_block ora v attr st.file
        = { file := chmod_effect st.file attr.st_mode, err := none,
            trace := [EvK.fchmodK] } := by
      simp [chmod_block, hm, hcm]
    have h2 : chown_block ora v attr (chmod_effect st.file attr.st_mode)
        = { file := chmod_effect st.file attr.st_mode, err := none, trace := [] } := by
      simp [chown_block, hu, hg]
    have h3 : size_block ora st.sess st.cachedMode true v attr
          (chmod_effect st.file attr.st_mode)
        = { file := chmod_effect st.file attr.st_mode, err := some .EINTR,
            trace := (if (st.sess.killprivV2 && v.kill_suidgid) = true
                then [EvK.dropCapK] else [])
              ++ [EvK.ftruncK]
              ++ (if (st.sess.killprivV2 && v.kill_suidgid) = true
                then [EvK.restoreCapK] else []) } := by
      simp only [size_block, hsz, if_true, htr]
      by_cases hkp : (st.sess.killprivV2 && v.kill_suidgid) = true <;> simp [hkp]
    have hb1 : bindStep (chmod_block ora v attr st.file) (chown_block ora v attr)
        = { file := chmod_effect st.file attr.st_mode, err := none,
            trace := [EvK.fchmodK] } := by
      rw [h1]
      simp [bindStep, h2]
    have hb2 : bindStep (bindStep (chmod_block ora v attr st.file)
          (chown_block ora v attr))
          (size_block ora st.sess st.cachedMode true v attr)
        = { file := chmod_effect st.file attr.st_mode, err := some .EINTR,
            trace := EvK.fchmodK
              :: ((if (st.sess.killprivV2 && v.kill_suidgid) = true
                  then [EvK.dropCapK] else [])
                ++ [EvK.ftruncK]
                ++ (if (st.sess.killprivV2 && v.kill_suidgid) = true
                  then [EvK.restoreCapK] else [])) } := by
      rw [hb1]
      simp [bindStep, h3]
    have hb3 : bindStep (bindStep (bindStep (chmod_block ora v attr st.file)
          (chown_block ora v attr))
          (size_block ora st.sess st.cachedMode true v attr))
          (utimens_block ora st.sess v attr)
        = { file := chmod_effect st.file attr.st_mode, err := some .EINTR,
            trace := EvK.fchmodK
              :: ((if (st.sess.killprivV2 && v.kill_suidgid) = true
                  then [EvK.dropCapK] else [])
                ++ [EvK.ftruncK]
                ++ (if (st.sess.killprivV2 && v.kill_suidgid) = true
                  then [EvK.restoreCapK] else [])) } := by
      rw [hb2]
      simp [bindStep]
    have huse : (!st.sess.noOpen && true) = true := by rw [hno]; rfl
    have hfin : setattr ora st attr true v
        = (.error .EINTR, { st with file := chmod_effect st.file attr.st_mode },
            EvK.fchmodK
              :: ((if (st.sess.killprivV2 && v.kill_suidgid) = true
                  then [EvK.dropCapK] else [])
                ++ [EvK.ftruncK]
                ++ (if (st.sess.killprivV2 && v.kill_suidgid) = true
                  then [EvK.restoreCapK] else []))) := by
      unfold setattr
      rw [hsz, hseal]
      simp only [Bool.and_false, Bool.false_eq_true, if_false, huse]
      rw [hb3]
    rw [hfin]
    refine ⟨rfl, rfl, ?_⟩
    by_cases hkp : (st.sess.killprivV2 && v.kill_suidgid) = true <;> simp [hkp]
  · intro ora st attr hasHandle v s h
    unfold setattr at h ⊢
    by_cases hseal : (v.size && st.sess.sealSize) = true
    · rw [hseal] at h
      simp at h
    · rw [Bool.not_eq_true] at hseal
      rw [hseal] at h ⊢
      simp only [Bool.false_eq_true, if_false] at h ⊢
      cases hre : (bindStep (bindStep (bindStep (chmod_block ora v attr st.file)
          (chown_block ora v attr))
          (size_block ora st.sess st.cachedMode (!st.sess.noOpen && hasHandle) v attr))
          (utimens_block ora st.sess v attr)).err with
      | some e =>
        rw [hre] at h
        simp at h
      | none =>
        rw [hre] at h
        by_cases hstat : ora .statK = true
        · simp only [hstat, if_true] at h ⊢
          simp only [Except.ok.injEq] at h
          subst h
          rfl
        · rw [Bool.not_eq_true] at hstat
          simp only [hstat, Bool.false_eq_true, if_false] at h
          simp at h

/-- Witness for C8: the mode+size request on a concrete file with the
truncate syscall failing keeps the chmod effect and reports the failure. -/
theorem c8_setattr_composition_witness :
    (setattr oracle_no_trunc c8FState c8Attr true c8Valid).1 = .error .EINTR
    ∧ (setattr oracle_no_trunc c8FState c8Attr true c8Valid).2.1
      = { c8FState with file := chmod_effect c8FState.file c8Attr.st_mode }
    ∧ EvK.futimensK ∉ (setattr oracle_no_trunc c8FState c8Attr true c8Valid).2.2 :=
  c8_setattr_composition.2.1 oracle_no_trunc c8FState c8Attr c8Valid
    rfl rfl rfl rfl rfl rfl rfl rfl

/-- C9 is false as the claim states it: running the two steps sequentially
on the same file created with mode bits 0o6777, the size-4096 setattr with
kill-suid clears the suid/sgid bits (mode reads 0o100777), so after the
subsequent extending fallocate the mode still reads back 0o100777 — not
0o106777 as claimed; the two read-backs of the spec scenario only both hold
on separate freshly created files. -/
theorem c9_killpriv_asymmetry_counterexample :
    (getattr_op allOk c9AfterSetattr).1
      = .ok { st_mode := 0o100777, st_size := 4096, st_uid := 0, st_gid := 0,
              st_atime := 0, st_mtime := 0 }
    ∧ (fallocate_op allOk c9AfterSetattr 0 4096 4096).1 = .ok ()
    ∧ (getattr_op allOk c9AfterFalloc).1
      = .ok { st_mode := 0o100777, st_size := 8192, st_uid := 0, st_gid := 0,
              st_atime := 0, st_mtime := 0 }
    ∧ (statOf c9AfterFalloc.file).st_mode ≠ 0o106777 := by
  refine ⟨rfl, rfl, rfl, by decide⟩

/-- C9 (amended): on a file freshly created with mode bits 0o6777, a
setattr size change to 4096 with the kill-suid flag set (killpriv
negotiated) returns attributes with mode 0o100777 (suid/sgid cleared);
an extending fallocate performed on a file freshly created with the same
bits leaves its mode at 0o106777 with the size extended — and indeed the
fallocate path never performs a privilege-clear adjustment, whatever the
session policy. -/
theorem c9_killpriv_asymmetry_amended :
    (setattr allOk c9State0 c9Attr false c9Valid).1
      = .ok { st_mode := 0o100777, st_size := 4096, st_uid := 0, st_gid := 0,
              st_atime := 0, st_mtime := 0 }
    ∧ (fallocate_op allOk c9State0 0 4096 4096).1 = .ok ()
    ∧ (fallocate_op allOk c9State0 0 4096 4096).2.1.file.mode = 0o106777
    ∧ (fallocate_op allOk c9State0 0 4096 4096).2.1.file.size = 8192
    ∧ (∀ (ora : EvK → Bool) (st : FState) (mode offset length : Nat),
        EvK.dropCapK ∉ (fallocate_op ora st mode offset length).2.2) := by
  refine ⟨rfl, rfl, by decide, by decide, ?_⟩
  intro ora st mode offset length
  simp only [fallocate_op, falloc_tail, seal_size_check]
  split_ifs <;> simp
